import Mathlib

/-!
# mifedfollow: the follow-decision loop of `cmd/root.go`

A shallow embedding of `rootCmd.Run` (src/cmd/root.go) and of the request helper
it calls (src/lib/request.go).

* Go strings are modelled by `String`; `fmt.Sprintf("@%s@%s", u, h)` is plain
  concatenation and `slices.Contains` is list membership with `==`.
* The global `following []string` is the field `RunState.following`; the REST
  calls the program issues are recorded, in order, in `RunState.calls`.
* The remote servers are an environment `Env`: it answers every call, and may
  look at the calls issued before it.
* Bodies handed to `encoding/json` are modelled after parsing, as a `Json`
  value (`none` when the text is not JSON at all); what the embedding keeps of
  the library is how a value is stored into the struct types declared in
  `root.go`: key lookup by struct tag, `null` leaving a field untouched, a
  value of the wrong kind being an error.
-/

namespace Mifedfollow

/-! ## JSON values and the struct decoding used by `root.go` -/

/-- A parsed JSON document. Numbers keep their literal text. -/
inductive Json where
  | null : Json
  | bool (b : Bool) : Json
  | num (lit : String) : Json
  | str (s : String) : Json
  | arr (items : List Json) : Json
  | obj (fields : List (String × Json)) : Json

/-- One rune of `foldName` (encoding/json): ASCII lower-case letters go to upper
case; the two non-ASCII runes whose case orbit holds an ASCII letter, U+017F
(long s) and U+212A (Kelvin sign), go to `S` and `K`. Other runes fold to a
non-ASCII rune and are left as they are: the tags of `root.go` are ASCII. -/
def foldRune (c : Char) : Char :=
  if c.toNat = 0x17F then 'S'
  else if c.toNat = 0x212A then 'K'
  else if 'a'.toNat ≤ c.toNat ∧ c.toNat ≤ 'z'.toNat then Char.ofNat (c.toNat - 32)
  else c

/-- The key folding of encoding/json, rune by rune. -/
def foldName (s : String) : String :=
  String.mk (s.data.map foldRune)

/-- A JSON object key selects the struct field tagged `tag` when it is the tag
itself or equal to it after folding. -/
def keyMatches (tag key : String) : Bool :=
  key == tag || foldName key == foldName tag

/-- Storing a JSON value into a Go `string` field holding `cur`: a string is
stored, `null` leaves the field as it is, any other kind is an
`UnmarshalTypeError`. -/
def storeString (cur : String) : Json → Option String
  | Json.str s => some s
  | Json.null => some cur
  | _ => none

/-- The struct `{Username string; Host string}` of both the stream message
(`json:"username"`, `json:"host"`) and the following-list entry. -/
structure User where
  Username : String
  Host : String
deriving DecidableEq, Repr

/-- Storing one key of a JSON object into a `User` whose `Host` field carries
the tag `hostTag`. The two tags never fold to the same name, so at most one
field is selected; an unknown key is skipped. -/
def storeUserField (hostTag : String) (acc : Option User) (kv : String × Json) :
    Option User :=
  match acc with
  | none => none
  | some u =>
    if keyMatches "username" kv.1 then
      (storeString u.Username kv.2).map (fun s => { u with Username := s })
    else if keyMatches hostTag kv.1 then
      (storeString u.Host kv.2).map (fun s => { u with Host := s })
    else some u

/-- Storing a JSON value into a `User` struct holding `cur`: the keys of an
object are stored in order (a repeated key overwrites), `null` is a no-op, any
other kind is an error. -/
def storeUser (hostTag : String) (cur : User) : Json → Option User
  | Json.obj fields => fields.foldl (storeUserField hostTag) (some cur)
  | Json.null => some cur
  | _ => none

/-- A struct whose only field is itself a struct and carries the tag `tag`,
seen as the value of that field; `store` is the decoder of the inner struct.
Used for the message envelope (`body`), the note body (`user`) and the
following-list entry (`followee`). -/
def storeWrapped {α : Type} (tag : String) (store : α → Json → Option α) (cur : α) :
    Json → Option α
  | Json.obj fields =>
    fields.foldl
      (fun acc kv =>
        match acc with
        | none => none
        | some a => if keyMatches tag kv.1 then store a kv.2 else some a)
      (some cur)
  | Json.null => some cur
  | _ => none

/-- The inner struct of the stream message: `Type string` tagged `type` and
`Body struct { User }` tagged `body`; the one-field `Body` is kept as its
`User`. -/
structure MsgBody where
  Typ : String
  User : User
deriving DecidableEq, Repr

/-- Storing one key of a JSON object into a `MsgBody`. -/
def storeMsgBodyField (acc : Option MsgBody) (kv : String × Json) : Option MsgBody :=
  match acc with
  | none => none
  | some b =>
    if keyMatches "type" kv.1 then
      (storeString b.Typ kv.2).map (fun s => { b with Typ := s })
    else if keyMatches "body" kv.1 then
      (storeWrapped "user" (storeUser "host") b.User kv.2).map (fun u => { b with User := u })
    else some b

/-- Storing a JSON value into a `MsgBody`. -/
def storeMsgBody (cur : MsgBody) : Json → Option MsgBody
  | Json.obj fields => fields.foldl storeMsgBodyField (some cur)
  | Json.null => some cur
  | _ => none

/-- The decoding `json.Unmarshal(message, &msg)` of root.go:137-148 on a parsed
message: `none` is a non-nil `err`. -/
def decodeMsg (j : Json) : Option MsgBody :=
  storeWrapped "body" storeMsgBody { Typ := "", User := { Username := "", Host := "" } } j

/-- The decoding of the `users/show` response into `struct { Id string }`
tagged `id` (root.go:167-170). -/
def decodeUsershow : Json → Option String
  | Json.obj fields =>
    fields.foldl
      (fun acc kv =>
        match acc with
        | none => none
        | some cur => if keyMatches "id" kv.1 then storeString cur kv.2 else some cur)
      (some "")
  | Json.null => some ""
  | _ => none

/-- The elements of the following-list array, each stored into a fresh
`struct { Followee struct { Username; Host } }`. The tags are the ones written
at root.go:83-85: `username`, and `destHost` for `Host`. -/
def decodeEntries : List Json → Option (List User)
  | [] => some []
  | j :: js =>
    match storeWrapped "followee" (storeUser "destHost") { Username := "", Host := "" } j with
    | none => none
    | some u => (decodeEntries js).map (fun us => u :: us)

/-- The decoding of the following-list response into `followingJson`
(root.go:81-87): an array is decoded element by element, `null` gives the nil
slice, any other kind is an error. -/
def decodeFollowing : Json → Option (List User)
  | Json.arr items => decodeEntries items
  | Json.null => some []
  | _ => none

/-- The value of `iResJson["id"]` after decoding the `/api/i` response into a
`map[string]interface{}` (root.go:62-68), as it is marshalled into the next
request: the last value under the exact key `id`, and `null` when the key is
absent. `none` is a decoding error. -/
def decodeIId : Json → Option Json
  | Json.obj fields =>
    some (((fields.reverse.find? (fun kv => kv.1 == "id")).map (fun kv => kv.2)).getD Json.null)
  | Json.null => some Json.null
  | _ => none

/-! ## Handles -/

/-- The handle string: `fmt.Sprintf("@%s@%s", username, host)`. -/
def handle (username host : String) : String :=
  "@" ++ username ++ "@" ++ host

/-! ## Configuration, calls and the environment -/

/-- The options bound by `init` (root.go:243-259). `Run` reads all of them
through viper except `limit`, which it never reads. -/
structure Config where
  destHost : String
  destToken : String
  srcHost : String
  srcToken : String
  channel : String
  limit : Int

/-- A REST call made through `lib.Request`: the endpoint and the body. -/
inductive Call where
  | i (endpoint token : String) : Call
  | usersFollowing (endpoint : String) (userId : Json) (limit : Int) (token : String) : Call
  | usersShow (endpoint username host : String) : Call
  | followingCreate (endpoint userId token : String) : Call

/-- What a `lib.Request` call comes to (request.go:15-43). -/
inductive ReqResult where
  /-- The call to `Request` returns a non-nil error: the body cannot be marshalled or
  `http.NewRequest` rejects the endpoint. -/
  | requestError : ReqResult
  /-- The send `client.Do` fails: `RequestRaw` logs with `Fatalln`, which exits. -/
  | sendFatal : ReqResult
  /-- A response came back; `body` is its parsed JSON, `none` when the body is
  not JSON. -/
  | response (body : Option Json) : ReqResult

/-- The remote servers: the outcome of a call, given the calls made before. -/
abbrev Env := List Call → Call → ReqResult

/-- The state of a run: the global `following` slice and the calls issued so
far, oldest first. -/
structure RunState where
  following : List String
  calls : List Call

/-- How control leaves a piece of the run. -/
inductive Flow where
  /-- The run goes on (the receive loop reads the next message). -/
  | running : Flow
  /-- The receive loop has ended by `break` and `done` is closed. -/
  | closed : Flow
  /-- A `Fatalf`/`Fatalln` was reached: the process has exited. -/
  | fatal : Flow
deriving DecidableEq, Repr

/-- The endpoint `fmt.Sprintf("https://%s/api/...", host)`. -/
def endpoint (host path : String) : String :=
  "https://" ++ host ++ "/api/" ++ path

/-! ## Startup: the following-list load (root.go:51-96) -/

/-- The self-id call, the following-list call and the loop that fills
`following`. The request carries the literal `100` as `limit`. -/
def loadFollowing (cfg : Config) (env : Env) : RunState × Flow :=
  let iCall := Call.i (endpoint cfg.destHost "i") cfg.destToken
  let st1 : RunState := { following := [], calls := [iCall] }
  match env [] iCall with
  | ReqResult.requestError => (st1, Flow.fatal)
  | ReqResult.sendFatal => (st1, Flow.fatal)
  | ReqResult.response iBody =>
    match iBody.bind decodeIId with
    | none => (st1, Flow.fatal)
    | some userId =>
      let fCall := Call.usersFollowing (endpoint cfg.destHost "users/following") userId 100
        cfg.destToken
      let st2 : RunState := { st1 with calls := st1.calls ++ [fCall] }
      match env st1.calls fCall with
      | ReqResult.requestError => (st2, Flow.fatal)
      | ReqResult.sendFatal => (st2, Flow.fatal)
      | ReqResult.response fBody =>
        match fBody.bind decodeFollowing with
        | none => (st2, Flow.fatal)
        | some followingJson =>
          ({ st2 with following := followingJson.map (fun f => handle f.Username f.Host) },
            Flow.running)

/-! ## The receive loop (root.go:128-194) -/

/-- The host after root.go:155-157: an empty host becomes `srcHost`. -/
def normalizedHost (srcHost host : String) : String :=
  if host = "" then srcHost else host

/-- The handle the `note` branch looks up and appends for the actor `user`. -/
def eventHandle (cfg : Config) (user : User) : String :=
  handle user.Username (normalizedHost cfg.srcHost user.Host)

/-- The `users/show` call for the actor `user` (root.go:159-162). -/
def showCall (cfg : Config) (user : User) : Call :=
  Call.usersShow (endpoint cfg.destHost "users/show") user.Username
    (normalizedHost cfg.srcHost user.Host)

/-- The `following/create` call for the account id `id` (root.go:176-179). -/
def followCall (cfg : Config) (id : String) : Call :=
  Call.followingCreate (endpoint cfg.destHost "following/create") id cfg.destToken

/-- The `note` branch (root.go:155-191) for the decoded actor `user`. -/
def processNote (cfg : Config) (env : Env) (st : RunState) (user : User) : RunState × Flow :=
  if eventHandle cfg user ∈ st.following then (st, Flow.running)
  else
    let st1 : RunState := { st with calls := st.calls ++ [showCall cfg user] }
    match env st.calls (showCall cfg user) with
    | ReqResult.requestError => (st1, Flow.fatal)
    | ReqResult.sendFatal => (st1, Flow.fatal)
    | ReqResult.response body =>
      match body.bind decodeUsershow with
      | none => (st1, Flow.fatal)
      | some id =>
        let st2 : RunState := { st1 with calls := st1.calls ++ [followCall cfg id] }
        match env st1.calls (followCall cfg id) with
        | ReqResult.requestError => (st2, Flow.fatal)
        | ReqResult.sendFatal => (st2, Flow.fatal)
        | ReqResult.response _ =>
          ({ st2 with following := st2.following ++ [eventHandle cfg user] }, Flow.running)

/-- One turn of `c.ReadMessage()`: a read error, or a message whose text
parsed (`some`) or did not (`none`). -/
inductive Frame where
  | readError : Frame
  | message (parsed : Option Json) : Frame

/-- One iteration of the receive loop. -/
def processFrame (cfg : Config) (env : Env) (st : RunState) : Frame → RunState × Flow
  | Frame.readError => (st, Flow.closed)
  | Frame.message none => (st, Flow.fatal)
  | Frame.message (some j) =>
    match decodeMsg j with
    | none => (st, Flow.fatal)
    | some msg =>
      if msg.Typ = "note" then processNote cfg env st msg.User else (st, Flow.running)

/-- The receive loop over the frames that arrive; `Flow.running` at the end
means the loop is waiting in `ReadMessage`. -/
def recvLoop (cfg : Config) (env : Env) (st : RunState) : List Frame → RunState × Flow
  | [] => (st, Flow.running)
  | f :: fs =>
    match processFrame cfg env st f with
    | (st1, Flow.running) => recvLoop cfg env st1 fs
    | r => r

/-! ## The signal-wait loop (root.go:196-213) -/

/-- Where the main goroutine stands. -/
inductive CoordLoc where
  /-- Blocked in the outer `select` (root.go:197). -/
  | outerSelect : CoordLoc
  /-- Blocked in the inner `select` (root.go:207), the close frame sent. -/
  | innerSelect : CoordLoc
  /-- `Run` has returned. -/
  | returned : CoordLoc
deriving DecidableEq, Repr

/-- What wakes a `select`. -/
inductive SelectEvent where
  /-- The channel `done` is closed. -/
  | done : SelectEvent
  /-- A signal is received on `interrupt`; `writeErr` tells whether writing the close frame
  fails. -/
  | interrupt (writeErr : Bool) : SelectEvent
  /-- The timer `time.After(time.Second)` fires. -/
  | timeout : SelectEvent
deriving DecidableEq, Repr

/-- One wake-up of the signal-wait loop. An event that is no case of the
`select` the goroutine is blocked in leaves it blocked there. After the inner
`select` control reaches the end of the `for` body and the loop starts over. -/
def coordStep : CoordLoc → SelectEvent → CoordLoc
  | CoordLoc.outerSelect, SelectEvent.done => CoordLoc.returned
  | CoordLoc.outerSelect, SelectEvent.interrupt true => CoordLoc.returned
  | CoordLoc.outerSelect, SelectEvent.interrupt false => CoordLoc.innerSelect
  | CoordLoc.outerSelect, SelectEvent.timeout => CoordLoc.outerSelect
  | CoordLoc.innerSelect, SelectEvent.done => CoordLoc.outerSelect
  | CoordLoc.innerSelect, SelectEvent.timeout => CoordLoc.outerSelect
  | CoordLoc.innerSelect, SelectEvent.interrupt _ => CoordLoc.innerSelect
  | CoordLoc.returned, _ => CoordLoc.returned

/-- The signal-wait loop run over a sequence of wake-ups. -/
def coordRun (loc : CoordLoc) (evs : List SelectEvent) : CoordLoc :=
  evs.foldl coordStep loc

/-! ## The whole of `Run` up to the receive loop -/

/-- The body of `Run` seen from the receive goroutine: the following-list load,
the dial (`dialOk`), the channel-join message (`joinOk`), then the receive loop
over `frames`. A failed dial or join is fatal (root.go:106-126). -/
def run (cfg : Config) (env : Env) (dialOk joinOk : Bool) (frames : List Frame) :
    RunState × Flow :=
  match loadFollowing cfg env with
  | (st, Flow.running) =>
    if dialOk && joinOk then recvLoop cfg env st frames else (st, Flow.fatal)
  | r => r

/-- The number of elements of a following-list response. -/
def entryCount : Json → Nat
  | Json.arr items => items.length
  | _ => 0

/-! ## Example inputs -/

/-- A configuration with source host `example.social`. -/
def exampleConfig : Config :=
  { destHost := "dest.example", destToken := "dtoken", srcHost := "example.social",
    srcToken := "stoken", channel := "globalTimeline", limit := 100 }

/-- The stream message of a note by `username` at `host`. -/
def noteMessage (typ username host : String) : Json :=
  Json.obj [("type", Json.str "channel"),
    ("body", Json.obj [("id", Json.str "1"), ("type", Json.str typ),
      ("body", Json.obj [("user", Json.obj [("username", Json.str username),
        ("host", Json.str host)])])])]

/-- A following-list entry as the server sends it. -/
def followeeEntry (username host : String) : Json :=
  Json.obj [("id", Json.str "f1"),
    ("followee", Json.obj [("username", Json.str username), ("host", Json.str host)])]

/-- A server that answers `/api/i` with id `me`, `users/following` with
`followingBody`, `users/show` with id `u1` and `following/create` with an
empty object. -/
def exampleEnv (followingBody : Json) : Env := fun _ call =>
  match call with
  | Call.i _ _ => ReqResult.response (some (Json.obj [("id", Json.str "me")]))
  | Call.usersFollowing _ _ _ _ => ReqResult.response (some followingBody)
  | Call.usersShow _ _ _ => ReqResult.response (some (Json.obj [("id", Json.str "u1")]))
  | Call.followingCreate _ _ _ => ReqResult.response (some (Json.obj []))

/-- A server whose `following/create` call cannot be sent. -/
def brokenFollowEnv : Env := fun _ call =>
  match call with
  | Call.usersShow _ _ _ => ReqResult.response (some (Json.obj [("id", Json.str "u1")]))
  | Call.followingCreate _ _ _ => ReqResult.sendFatal
  | _ => ReqResult.response (some (Json.obj []))

/-- A server whose `users/show` answer is not JSON. -/
def brokenShowEnv : Env := fun _ call =>
  match call with
  | Call.usersShow _ _ _ => ReqResult.response none
  | _ => ReqResult.response (some (Json.obj []))

/-- A following list of `n` distinct remote accounts `user0 … user(n-1)`. -/
def followingList (n : Nat) : Json :=
  Json.arr ((List.range n).map (fun k => followeeEntry ("user" ++ toString k) "remote.example"))

/-- The example configuration with `--limit 50`. -/
def limit50Config : Config :=
  { destHost := "dest.example", destToken := "dtoken", srcHost := "example.social",
    srcToken := "stoken", channel := "globalTimeline", limit := 50 }

/-- A server for an account that follows `total` accounts and honours the
`limit` of the `users/following` request it receives: it answers with the
first `min limit total` entries. -/
def pagingEnv (total : Nat) : Env := fun _ call =>
  match call with
  | Call.i _ _ => ReqResult.response (some (Json.obj [("id", Json.str "me")]))
  | Call.usersFollowing _ _ lim _ => ReqResult.response (some (followingList (min lim.toNat total)))
  | Call.usersShow _ _ _ => ReqResult.response (some (Json.obj [("id", Json.str "u1")]))
  | Call.followingCreate _ _ _ => ReqResult.response (some (Json.obj []))

/-! ## The decision step -/

/-- The `note` branch on an actor whose handle is already in `following`. -/
theorem processNote_of_mem (cfg : Config) (env : Env) (st : RunState) (user : User)
    (h : eventHandle cfg user ∈ st.following) :
    processNote cfg env st user = (st, Flow.running) := by
  simp [processNote, h]

/-- The `note` branch when both calls come back and the lookup decodes. -/
theorem processNote_of_success (cfg : Config) (env : Env) (st : RunState) (user : User)
    (body : Json) (id : String) (r : Option Json)
    (hnot : eventHandle cfg user ∉ st.following)
    (hshow : env st.calls (showCall cfg user) = ReqResult.response (some body))
    (hid : decodeUsershow body = some id)
    (hfollow : env (st.calls ++ [showCall cfg user]) (followCall cfg id) = ReqResult.response r) :
    processNote cfg env st user =
      ({ following := st.following ++ [eventHandle cfg user],
         calls := st.calls ++ [showCall cfg user] ++ [followCall cfg id] }, Flow.running) := by
  simp [processNote, hnot, hshow, hid, hfollow]

/-- A message that decodes to a note is handled by the `note` branch. -/
theorem processFrame_note (cfg : Config) (env : Env) (st : RunState) (j : Json) (msg : MsgBody)
    (hdec : decodeMsg j = some msg) (htyp : msg.Typ = "note") :
    processFrame cfg env st (Frame.message (some j)) = processNote cfg env st msg.User := by
  simp [processFrame, hdec, htyp]

/-- C1. Idempotence of the decision step: a note event whose actor handle, after
host normalization, is already in the following set issues no call (the call
trace is unchanged, so neither `users/show` nor `following/create` is sent),
leaves the set as it was, and the receive loop goes on. -/
theorem C1_idempotent (cfg : Config) (env : Env) (st : RunState) (j : Json) (msg : MsgBody)
    (hdec : decodeMsg j = some msg) (htyp : msg.Typ = "note")
    (hmem : handle msg.User.Username (normalizedHost cfg.srcHost msg.User.Host)
      ∈ st.following) :
    (processFrame cfg env st (Frame.message (some j))).1.calls = st.calls ∧
    (processFrame cfg env st (Frame.message (some j))).1.following = st.following ∧
    (processFrame cfg env st (Frame.message (some j))).2 = Flow.running := by
  rw [processFrame_note cfg env st j msg hdec htyp, processNote_of_mem cfg env st msg.User hmem]
  exact ⟨rfl, rfl, rfl⟩

/-- C1 at the repeated event of the example scenario: `alice` with empty host,
already followed as `@alice@example.social`. -/
theorem C1_idempotent_witness :
    decodeMsg (noteMessage "note" "alice" "")
      = some { Typ := "note", User := { Username := "alice", Host := "" } } ∧
    handle "alice" (normalizedHost exampleConfig.srcHost "") ∈ ["@alice@example.social"] ∧
    (processFrame exampleConfig (exampleEnv Json.null)
      { following := ["@alice@example.social"], calls := [] }
      (Frame.message (some (noteMessage "note" "alice" "")))).1.calls = [] ∧
    (processFrame exampleConfig (exampleEnv Json.null)
      { following := ["@alice@example.social"], calls := [] }
      (Frame.message (some (noteMessage "note" "alice" "")))).1.following
      = ["@alice@example.social"] ∧
    (processFrame exampleConfig (exampleEnv Json.null)
      { following := ["@alice@example.social"], calls := [] }
      (Frame.message (some (noteMessage "note" "alice" "")))).2 = Flow.running :=
  ⟨by decide, by decide,
    C1_idempotent exampleConfig (exampleEnv Json.null)
      { following := ["@alice@example.social"], calls := [] }
      (noteMessage "note" "alice" "")
      { Typ := "note", User := { Username := "alice", Host := "" } }
      (by decide) rfl (by decide)⟩

/-- C2. Set growth: for a note event whose normalized handle `H` is not in the
set, when the `users/show` call returns a body that decodes to `id` and the
`following/create` call returns, the calls issued are exactly the lookup (with
the actor's username and normalized host) followed by the follow call (with
`id` and the destination token), and the set becomes the old one with `H`
appended: one longer, holding `H`, and keeping every old member. -/
theorem C2_set_growth (cfg : Config) (env : Env) (st : RunState) (j : Json) (msg : MsgBody)
    (body : Json) (id : String) (r : Option Json)
    (hdec : decodeMsg j = some msg) (htyp : msg.Typ = "note")
    (hnot : handle msg.User.Username (normalizedHost cfg.srcHost msg.User.Host)
      ∉ st.following)
    (hshow : env st.calls (Call.usersShow (endpoint cfg.destHost "users/show")
      msg.User.Username (normalizedHost cfg.srcHost msg.User.Host))
      = ReqResult.response (some body))
    (hid : decodeUsershow body = some id)
    (hfollow : env (st.calls ++ [Call.usersShow (endpoint cfg.destHost "users/show")
      msg.User.Username (normalizedHost cfg.srcHost msg.User.Host)])
      (Call.followingCreate (endpoint cfg.destHost "following/create") id cfg.destToken)
      = ReqResult.response r) :
    (processFrame cfg env st (Frame.message (some j))).2 = Flow.running ∧
    (processFrame cfg env st (Frame.message (some j))).1.calls
      = st.calls ++ [Call.usersShow (endpoint cfg.destHost "users/show")
          msg.User.Username (normalizedHost cfg.srcHost msg.User.Host),
        Call.followingCreate (endpoint cfg.destHost "following/create") id cfg.destToken] ∧
    (processFrame cfg env st (Frame.message (some j))).1.following
      = st.following ++ [handle msg.User.Username (normalizedHost cfg.srcHost msg.User.Host)] ∧
    (processFrame cfg env st (Frame.message (some j))).1.following.length
      = st.following.length + 1 ∧
    handle msg.User.Username (normalizedHost cfg.srcHost msg.User.Host)
      ∈ (processFrame cfg env st (Frame.message (some j))).1.following ∧
    ∀ x ∈ st.following, x ∈ (processFrame cfg env st (Frame.message (some j))).1.following := by
  rw [processFrame_note cfg env st j msg hdec htyp,
    processNote_of_success cfg env st msg.User body id r hnot hshow hid hfollow]
  refine ⟨rfl, ?_, rfl, ?_, ?_, ?_⟩
  · simp [showCall, followCall]
  · simp
  · simp [eventHandle]
  · intro x hx
    simp [hx]

/-- C2 at the first example scenario: the empty set, actor `alice` with empty
host, source host `example.social`; the set becomes `{@alice@example.social}`. -/
theorem C2_set_growth_witness :
    (processFrame exampleConfig (exampleEnv Json.null) { following := [], calls := [] }
      (Frame.message (some (noteMessage "note" "alice" "")))).1.following
      = ["@alice@example.social"] ∧
    (processFrame exampleConfig (exampleEnv Json.null) { following := [], calls := [] }
      (Frame.message (some (noteMessage "note" "alice" "")))).1.calls
      = [Call.usersShow "https://dest.example/api/users/show" "alice" "example.social",
         Call.followingCreate "https://dest.example/api/following/create" "u1" "dtoken"] :=
  have h := C2_set_growth exampleConfig (exampleEnv Json.null) { following := [], calls := [] }
    (noteMessage "note" "alice" "")
    { Typ := "note", User := { Username := "alice", Host := "" } }
    (Json.obj [("id", Json.str "u1")]) "u1" (some (Json.obj []))
    (by decide) rfl (by decide) rfl (by decide) rfl
  ⟨h.2.2.1, h.2.1⟩

/-- The `note` branch only ever appends to the call trace: it leaves it as it
was, or appends the lookup and possibly further calls. -/
theorem processNote_calls (cfg : Config) (env : Env) (st : RunState) (user : User) :
    (processNote cfg env st user).1.calls = st.calls ∨
    ∃ rest, (processNote cfg env st user).1.calls
      = st.calls ++ showCall cfg user :: rest := by
  unfold processNote
  split
  · exact Or.inl rfl
  · right
    split
    · exact ⟨[], rfl⟩
    · exact ⟨[], rfl⟩
    · split
      · exact ⟨[], rfl⟩
      · rename_i id _
        refine ⟨[followCall cfg id], ?_⟩
        rcases hr : env (st.calls ++ [showCall cfg user]) (followCall cfg id) with _ | _ | _ <;>
          simp [hr]

/-- C6. Host normalization: with source host `srcHost`, a note event by
`(u, "")` and one by `(u, srcHost)` get the same handle and the same membership
answer, and processing either from the same state against the same servers
gives the same call trace, the same set and the same control outcome; a lookup
that is issued carries `u` and `srcHost`. The same holds for the two messages
as they are read from the stream. -/
theorem C6_host_normalization (cfg : Config) (env : Env) (st : RunState) (u : String) :
    eventHandle cfg { Username := u, Host := "" }
      = eventHandle cfg { Username := u, Host := cfg.srcHost } ∧
    eventHandle cfg { Username := u, Host := "" } = handle u cfg.srcHost ∧
    (eventHandle cfg { Username := u, Host := "" } ∈ st.following ↔
      eventHandle cfg { Username := u, Host := cfg.srcHost } ∈ st.following) ∧
    processNote cfg env st { Username := u, Host := "" }
      = processNote cfg env st { Username := u, Host := cfg.srcHost } ∧
    ((processNote cfg env st { Username := u, Host := "" }).1.calls = st.calls ∨
      ∃ rest, (processNote cfg env st { Username := u, Host := "" }).1.calls
        = st.calls ++ Call.usersShow (endpoint cfg.destHost "users/show") u cfg.srcHost
            :: rest) ∧
    ∀ j₁ j₂ : Json,
      decodeMsg j₁ = some { Typ := "note", User := { Username := u, Host := "" } } →
      decodeMsg j₂ = some { Typ := "note", User := { Username := u, Host := cfg.srcHost } } →
      processFrame cfg env st (Frame.message (some j₁))
        = processFrame cfg env st (Frame.message (some j₂)) := by
  have hh : eventHandle cfg { Username := u, Host := "" }
      = eventHandle cfg { Username := u, Host := cfg.srcHost } := by
    by_cases hs : cfg.srcHost = "" <;> simp [eventHandle, normalizedHost, hs]
  have hc : showCall cfg { Username := u, Host := "" }
      = showCall cfg { Username := u, Host := cfg.srcHost } := by
    by_cases hs : cfg.srcHost = "" <;> simp [showCall, normalizedHost, hs]
  have hp : processNote cfg env st { Username := u, Host := "" }
      = processNote cfg env st { Username := u, Host := cfg.srcHost } := by
    simp only [processNote, hh, hc]
  refine ⟨hh, by simp [eventHandle, normalizedHost], by rw [hh], hp, ?_, ?_⟩
  · have h := processNote_calls cfg env st { Username := u, Host := "" }
    simpa [showCall, normalizedHost] using h
  · intro j₁ j₂ h₁ h₂
    rw [processFrame_note cfg env st j₁ _ h₁ rfl, processFrame_note cfg env st j₂ _ h₂ rfl]
    exact hp

/-- C6 at `alice` on source host `example.social`: the message with the empty
host and the one with the host spelled out are processed alike. -/
theorem C6_host_normalization_witness :
    decodeMsg (noteMessage "note" "alice" "")
      = some { Typ := "note", User := { Username := "alice", Host := "" } } ∧
    decodeMsg (noteMessage "note" "alice" "example.social")
      = some { Typ := "note", User := { Username := "alice", Host := "example.social" } } ∧
    processFrame exampleConfig (exampleEnv Json.null) { following := [], calls := [] }
        (Frame.message (some (noteMessage "note" "alice" "")))
      = processFrame exampleConfig (exampleEnv Json.null) { following := [], calls := [] }
        (Frame.message (some (noteMessage "note" "alice" "example.social"))) :=
  ⟨by decide, by decide,
    (C6_host_normalization exampleConfig (exampleEnv Json.null)
      { following := [], calls := [] } "alice").2.2.2.2.2
      (noteMessage "note" "alice" "") (noteMessage "note" "alice" "example.social")
      (by decide) (by decide)⟩

/-- C9. Non-note messages are discarded: a message that decodes and whose inner
type is not exactly `note` issues no call, leaves the set as it was, and the
receive loop goes on to the next message. -/
theorem C9_non_note_discarded (cfg : Config) (env : Env) (st : RunState) (j : Json)
    (msg : MsgBody) (rest : List Frame)
    (hdec : decodeMsg j = some msg) (htyp : msg.Typ ≠ "note") :
    processFrame cfg env st (Frame.message (some j)) = (st, Flow.running) ∧
    recvLoop cfg env st (Frame.message (some j) :: rest) = recvLoop cfg env st rest := by
  have h : processFrame cfg env st (Frame.message (some j)) = (st, Flow.running) := by
    simp [processFrame, hdec, htyp]
  exact ⟨h, by simp [recvLoop, h]⟩

/-- C9 at the third example scenario: a message of inner type `reply`. -/
theorem C9_non_note_discarded_witness :
    decodeMsg (noteMessage "reply" "alice" "")
      = some { Typ := "reply", User := { Username := "alice", Host := "" } } ∧
    ("reply" : String) ≠ "note" ∧
    processFrame exampleConfig (exampleEnv Json.null) { following := [], calls := [] }
        (Frame.message (some (noteMessage "reply" "alice" "")))
      = ({ following := [], calls := [] }, Flow.running) ∧
    recvLoop exampleConfig (exampleEnv Json.null) { following := [], calls := [] }
        [Frame.message (some (noteMessage "reply" "alice" "")),
         Frame.message (some (noteMessage "note" "bob" ""))]
      = recvLoop exampleConfig (exampleEnv Json.null) { following := [], calls := [] }
        [Frame.message (some (noteMessage "note" "bob" ""))] :=
  ⟨by decide, by decide,
    C9_non_note_discarded exampleConfig (exampleEnv Json.null) { following := [], calls := [] }
      (noteMessage "reply" "alice" "")
      { Typ := "reply", User := { Username := "alice", Host := "" } }
      [Frame.message (some (noteMessage "note" "bob" ""))] (by decide) (by decide)⟩

/-- C10. Lookup and follow failures are fatal and atomic. For a note event whose
handle `H` is not in the set: (1) when the `users/show` call fails (`Request`
returns an error, the send fails, or the body does not decode) the run ends on
the fatal path, the only call issued is the lookup (no follow call) and the set
is unchanged; (2) when the lookup gives `id` and the `following/create` call
fails, the run ends on the fatal path after the lookup and the follow call, and
the set is unchanged; (3) `H` is in the set afterwards only if the lookup
decoded to some `id` and the follow call for that `id` came back, and then both
calls were issued in that order and the loop goes on. -/
theorem C10_failure_fatal_atomic (cfg : Config) (env : Env) (st : RunState) (j : Json)
    (msg : MsgBody) (hdec : decodeMsg j = some msg) (htyp : msg.Typ = "note")
    (hnot : eventHandle cfg msg.User ∉ st.following) :
    ((env st.calls (showCall cfg msg.User) = ReqResult.requestError ∨
        env st.calls (showCall cfg msg.User) = ReqResult.sendFatal ∨
        ∃ body, env st.calls (showCall cfg msg.User) = ReqResult.response body ∧
          body.bind decodeUsershow = none) →
      processFrame cfg env st (Frame.message (some j))
        = ({ following := st.following, calls := st.calls ++ [showCall cfg msg.User] },
            Flow.fatal)) ∧
    (∀ body id, env st.calls (showCall cfg msg.User) = ReqResult.response body →
      body.bind decodeUsershow = some id →
      (env (st.calls ++ [showCall cfg msg.User]) (followCall cfg id) = ReqResult.requestError ∨
        env (st.calls ++ [showCall cfg msg.User]) (followCall cfg id) = ReqResult.sendFatal) →
      processFrame cfg env st (Frame.message (some j))
        = ({ following := st.following,
             calls := st.calls ++ [showCall cfg msg.User, followCall cfg id] }, Flow.fatal)) ∧
    (eventHandle cfg msg.User ∈ (processFrame cfg env st (Frame.message (some j))).1.following →
      ∃ body id r, env st.calls (showCall cfg msg.User) = ReqResult.response body ∧
        body.bind decodeUsershow = some id ∧
        env (st.calls ++ [showCall cfg msg.User]) (followCall cfg id) = ReqResult.response r ∧
        processFrame cfg env st (Frame.message (some j))
          = ({ following := st.following ++ [eventHandle cfg msg.User],
               calls := st.calls ++ [showCall cfg msg.User, followCall cfg id] },
              Flow.running)) := by
  rw [processFrame_note cfg env st j msg hdec htyp]
  refine ⟨?_, ?_, ?_⟩
  · rintro (h | h | ⟨body, h, hb⟩) <;> simp [processNote, hnot, h, *]
  · rintro body id h hb (hf | hf) <;> simp [processNote, hnot, h, hb, hf]
  · intro hin
    rcases h : env st.calls (showCall cfg msg.User) with _ | _ | body
    · simp [processNote, hnot, h] at hin
    · simp [processNote, hnot, h] at hin
    · rcases hb : body.bind decodeUsershow with _ | id
      · simp [processNote, hnot, h, hb] at hin
      · rcases hf : env (st.calls ++ [showCall cfg msg.User]) (followCall cfg id)
          with _ | _ | r
        · simp [processNote, hnot, h, hb, hf] at hin
        · simp [processNote, hnot, h, hb, hf] at hin
        · exact ⟨body, id, r, rfl, hb, hf, by simp [processNote, hnot, h, hb, hf]⟩

/-- C10 at `alice` on the empty set: with an undecodable lookup answer the run
is fatal after the lookup alone; with a follow call that cannot be sent it is
fatal after both calls; in both the set stays empty. With both calls answered
the handle is in the set, and the calls are the ones the theorem names. -/
theorem C10_failure_fatal_atomic_witness :
    decodeMsg (noteMessage "note" "alice" "")
      = some { Typ := "note", User := { Username := "alice", Host := "" } } ∧
    eventHandle exampleConfig { Username := "alice", Host := "" } ∉ ([] : List String) ∧
    processFrame exampleConfig brokenShowEnv { following := [], calls := [] }
        (Frame.message (some (noteMessage "note" "alice" "")))
      = ({ following := [],
           calls := [Call.usersShow "https://dest.example/api/users/show" "alice"
             "example.social"] }, Flow.fatal) ∧
    processFrame exampleConfig brokenFollowEnv { following := [], calls := [] }
        (Frame.message (some (noteMessage "note" "alice" "")))
      = ({ following := [],
           calls := [Call.usersShow "https://dest.example/api/users/show" "alice"
             "example.social",
             Call.followingCreate "https://dest.example/api/following/create" "u1" "dtoken"] },
          Flow.fatal) ∧
    (∃ body id r,
      exampleEnv Json.null [] (showCall exampleConfig { Username := "alice", Host := "" })
        = ReqResult.response body ∧
      body.bind decodeUsershow = some id ∧
      exampleEnv Json.null [showCall exampleConfig { Username := "alice", Host := "" }]
        (followCall exampleConfig id) = ReqResult.response r ∧
      processFrame exampleConfig (exampleEnv Json.null) { following := [], calls := [] }
          (Frame.message (some (noteMessage "note" "alice" "")))
        = ({ following := ["@alice@example.social"],
             calls := [showCall exampleConfig { Username := "alice", Host := "" },
               followCall exampleConfig id] }, Flow.running)) :=
  ⟨by decide, by decide,
    (C10_failure_fatal_atomic exampleConfig brokenShowEnv { following := [], calls := [] }
      (noteMessage "note" "alice" "")
      { Typ := "note", User := { Username := "alice", Host := "" } }
      (by decide) rfl (by decide)).1 (Or.inr (Or.inr ⟨none, rfl, rfl⟩)),
    (C10_failure_fatal_atomic exampleConfig brokenFollowEnv { following := [], calls := [] }
      (noteMessage "note" "alice" "")
      { Typ := "note", User := { Username := "alice", Host := "" } }
      (by decide) rfl (by decide)).2.1 (some (Json.obj [("id", Json.str "u1")])) "u1" rfl
      (by decide) (Or.inr rfl),
    (C10_failure_fatal_atomic exampleConfig (exampleEnv Json.null)
      { following := [], calls := [] } (noteMessage "note" "alice" "")
      { Typ := "note", User := { Username := "alice", Host := "" } }
      (by decide) rfl (by decide)).2.2 (by decide)⟩

/-! ## The following-list load -/

/-- The array decoder yields one struct per element. -/
theorem decodeEntries_length (items : List Json) :
    ∀ us, decodeEntries items = some us → us.length = items.length := by
  induction items with
  | nil => intro us h; simp [decodeEntries] at h; simp [← h]
  | cons j js ih =>
    intro us h
    unfold decodeEntries at h
    split at h
    · simp at h
    · rcases hd : decodeEntries js with _ | vs
      · simp [hd] at h
      · simp [hd] at h
        simp [← h, ih vs hd]

/-- What a successful load has done: both calls came back with bodies that
decode, and `following` holds one handle per decoded entry, in order. -/
theorem loadFollowing_running (cfg : Config) (env : Env)
    (h : (loadFollowing cfg env).2 = Flow.running) :
    ∃ userId fBody us,
      env [Call.i (endpoint cfg.destHost "i") cfg.destToken]
        (Call.usersFollowing (endpoint cfg.destHost "users/following") userId 100 cfg.destToken)
        = ReqResult.response (some fBody) ∧
      decodeFollowing fBody = some us ∧
      (loadFollowing cfg env).1.following = us.map (fun f => handle f.Username f.Host) := by
  unfold loadFollowing at h ⊢
  rcases h1 : env [] (Call.i (endpoint cfg.destHost "i") cfg.destToken) with _ | _ | iBody
  · simp [h1] at h
  · simp [h1] at h
  · rcases h2 : iBody.bind decodeIId with _ | userId
    · simp [h1, h2] at h
    · rcases h3 : env [Call.i (endpoint cfg.destHost "i") cfg.destToken]
        (Call.usersFollowing (endpoint cfg.destHost "users/following") userId 100
          cfg.destToken) with _ | _ | fBody
      · simp [h1, h2, h3] at h
      · simp [h1, h2, h3] at h
      · rcases h4 : fBody.bind decodeFollowing with _ | us
        · simp [h1, h2, h3, h4] at h
        · rcases fBody with _ | fb
          · simp at h4
          · refine ⟨userId, fb, us, h3, by simpa using h4, ?_⟩
            simp [h1, h2, h3, h4]

/-- A decoded following list has as many structs as the response has entries. -/
theorem decodeFollowing_length (fBody : Json) (us : List User)
    (h : decodeFollowing fBody = some us) : us.length = entryCount fBody := by
  cases fBody with
  | arr items => exact decodeEntries_length items us h
  | null => simp [decodeFollowing] at h; simp [← h, entryCount]
  | bool b => simp [decodeFollowing] at h
  | num n => simp [decodeFollowing] at h
  | str t => simp [decodeFollowing] at h
  | obj fs => simp [decodeFollowing] at h

/-- A following-list entry as the server sends it decodes with an empty
`Host`: the key `host` does not select the field tagged `destHost`. -/
theorem decode_followeeEntry (username host : String) :
    storeWrapped "followee" (storeUser "destHost") { Username := "", Host := "" }
      (followeeEntry username host) = some { Username := username, Host := "" } := by
  have h1 : keyMatches "followee" "id" = false := by decide
  have h2 : keyMatches "followee" "followee" = true := by decide
  have h3 : keyMatches "username" "username" = true := by decide
  have h4 : keyMatches "username" "host" = false := by decide
  have h5 : keyMatches "destHost" "host" = false := by decide
  simp [storeWrapped, followeeEntry, storeUser, storeUserField, storeString, h1, h2, h3, h4, h5]

/-- The decoding of a list of such entries. -/
theorem decodeEntries_followeeEntries (f : Nat → String) (host : String) (l : List Nat) :
    decodeEntries (l.map (fun k => followeeEntry (f k) host))
      = some (l.map (fun k => { Username := f k, Host := "" })) := by
  induction l with
  | nil => rfl
  | cons k ks ih => simp [decodeEntries, decode_followeeEntry, ih]

/-- The load against the example server. -/
theorem loadFollowing_followingList (n : Nat) :
    loadFollowing exampleConfig (exampleEnv (followingList n))
      = ({ following := (List.range n).map (fun k => handle ("user" ++ toString k) ""),
           calls := [Call.i "https://dest.example/api/i" "dtoken",
             Call.usersFollowing "https://dest.example/api/users/following" (Json.str "me") 100
               "dtoken"] }, Flow.running) := by
  have hi : decodeIId (Json.obj [("id", Json.str "me")]) = some (Json.str "me") := by
    simp [decodeIId]
  have hf := decodeEntries_followeeEntries (fun k => "user" ++ toString k) "remote.example"
    (List.range n)
  have he : endpoint "dest.example" "i" = "https://dest.example/api/i" := by decide
  have he2 : endpoint "dest.example" "users/following"
      = "https://dest.example/api/users/following" := by decide
  simp [loadFollowing, exampleEnv, exampleConfig, hi, followingList, decodeFollowing, hf, he, he2,
    Function.comp_def]

/-- The load never cuts the response: when it succeeds, the following-list
call it issued (with the literal limit `100`) came back with a body that
decodes, and the set holds one handle per entry of that body, in order. -/
theorem loadFollowing_length (cfg : Config) (env : Env)
    (h : (loadFollowing cfg env).2 = Flow.running) :
    ∃ userId fBody us,
      env [Call.i (endpoint cfg.destHost "i") cfg.destToken]
        (Call.usersFollowing (endpoint cfg.destHost "users/following") userId 100 cfg.destToken)
        = ReqResult.response (some fBody) ∧
      decodeFollowing fBody = some us ∧
      (loadFollowing cfg env).1.following = us.map (fun f => handle f.Username f.Host) ∧
      (loadFollowing cfg env).1.following.length = entryCount fBody := by
  obtain ⟨userId, fBody, us, hcall, hdec, hfol⟩ := loadFollowing_running cfg env h
  refine ⟨userId, fBody, us, hcall, hdec, hfol, ?_⟩
  rw [hfol, List.length_map, decodeFollowing_length fBody us hdec]

/-- The load with `--limit 50` against a server that honours the limit it is
sent, for an account following 80 accounts. -/
theorem loadFollowing_limit50 :
    loadFollowing limit50Config (pagingEnv 80)
      = ({ following := (List.range 80).map (fun k => handle ("user" ++ toString k) ""),
           calls := [Call.i "https://dest.example/api/i" "dtoken",
             Call.usersFollowing "https://dest.example/api/users/following" (Json.str "me") 100
               "dtoken"] }, Flow.running) := by
  have hi : decodeIId (Json.obj [("id", Json.str "me")]) = some (Json.str "me") := by
    simp [decodeIId]
  have hf := decodeEntries_followeeEntries (fun k => "user" ++ toString k) "remote.example"
    (List.range 80)
  have he : endpoint "dest.example" "i" = "https://dest.example/api/i" := by decide
  have he2 : endpoint "dest.example" "users/following"
      = "https://dest.example/api/users/following" := by decide
  have hm : min (100 : Int).toNat 80 = 80 := by decide
  simp [loadFollowing, pagingEnv, limit50Config, hi, followingList, decodeFollowing, hf, he, he2,
    hm, Function.comp_def]

/-- C5, the code with `--limit 50` for a destination account that follows 80
accounts, the server honouring the limit of the request it receives: the
following-list request carries the limit `100`, not the configured `50`; the
server answers with the 80 entries and the loaded set holds 80 handles, more
than the configured limit. The load is the same whatever limit is
configured. -/
theorem C5_limit_not_sent_at_failing_input :
    limit50Config.limit = 50 ∧
    (loadFollowing limit50Config (pagingEnv 80)).2 = Flow.running ∧
    (loadFollowing limit50Config (pagingEnv 80)).1.calls
      = [Call.i "https://dest.example/api/i" "dtoken",
         Call.usersFollowing "https://dest.example/api/users/following" (Json.str "me") 100
           "dtoken"] ∧
    (loadFollowing limit50Config (pagingEnv 80)).1.following.length = 80 ∧
    ¬ (((loadFollowing limit50Config (pagingEnv 80)).1.following.length : Int)
        ≤ limit50Config.limit) ∧
    (∀ (cfg : Config) (env : Env) (l : Int),
      loadFollowing { cfg with limit := l } env = loadFollowing cfg env) := by
  rw [loadFollowing_limit50]
  refine ⟨rfl, rfl, rfl, by simp, by simp [limit50Config], ?_⟩
  intro cfg env l
  rfl

/-- The load of a response of 150 entries with `limit = 100` configured, from a
server that does not cut its answer: the set holds the 150 of them. -/
theorem loadFollowing_150 :
    exampleConfig.limit = 100 ∧
    entryCount (followingList 150) = 150 ∧
    (loadFollowing exampleConfig (exampleEnv (followingList 150))).2 = Flow.running ∧
    (loadFollowing exampleConfig (exampleEnv (followingList 150))).1.following.length = 150 := by
  rw [loadFollowing_followingList]
  simp [exampleConfig, entryCount, followingList]

/-! ## Duplicates -/

/-- The `note` branch keeps a duplicate-free set duplicate-free: it appends a
handle only after finding it absent. -/
theorem processNote_nodup (cfg : Config) (env : Env) (st : RunState) (user : User)
    (h : st.following.Nodup) : (processNote cfg env st user).1.following.Nodup := by
  by_cases hmem : eventHandle cfg user ∈ st.following
  · rw [processNote_of_mem cfg env st user hmem]
    exact h
  · rcases h1 : env st.calls (showCall cfg user) with _ | _ | body
    · simpa [processNote, hmem, h1] using h
    · simpa [processNote, hmem, h1] using h
    · rcases h2 : body.bind decodeUsershow with _ | id
      · simpa [processNote, hmem, h1, h2] using h
      · rcases h3 : env (st.calls ++ [showCall cfg user]) (followCall cfg id) with _ | _ | r
        · simpa [processNote, hmem, h1, h2, h3] using h
        · simpa [processNote, hmem, h1, h2, h3] using h
        · have hn : (st.following ++ [eventHandle cfg user]).Nodup :=
            List.Nodup.append h (List.nodup_singleton _) (by simpa using hmem)
          simpa [processNote, hmem, h1, h2, h3] using hn

/-- One iteration of the receive loop keeps the set duplicate-free. -/
theorem processFrame_nodup (cfg : Config) (env : Env) (st : RunState) (f : Frame)
    (h : st.following.Nodup) : (processFrame cfg env st f).1.following.Nodup := by
  unfold processFrame
  split
  · exact h
  · exact h
  · split
    · exact h
    · split
      · exact processNote_nodup cfg env st _ h
      · exact h

/-- The receive loop keeps the set duplicate-free. -/
theorem recvLoop_nodup (cfg : Config) (env : Env) (frames : List Frame) :
    ∀ st : RunState, st.following.Nodup → (recvLoop cfg env st frames).1.following.Nodup := by
  induction frames with
  | nil => intro st h; exact h
  | cons f fs ih =>
    intro st h
    have hf := processFrame_nodup cfg env st f h
    unfold recvLoop
    split
    · rename_i st1 heq
      rw [heq] at hf
      exact ih st1 hf
    · exact hf

/-- C3, as stated, fails: a following-list response that names the same
followee twice loads a set that holds one handle twice. -/
theorem C3_counterexample :
    (loadFollowing exampleConfig (exampleEnv (Json.arr
      [followeeEntry "alice" "example.social", followeeEntry "alice" "example.social"]))).2
      = Flow.running ∧
    (loadFollowing exampleConfig (exampleEnv (Json.arr
      [followeeEntry "alice" "example.social",
       followeeEntry "alice" "example.social"]))).1.following = ["@alice@", "@alice@"] ∧
    ¬ (loadFollowing exampleConfig (exampleEnv (Json.arr
      [followeeEntry "alice" "example.social",
       followeeEntry "alice" "example.social"]))).1.following.Nodup := by
  decide

/-- C3, amended. The decision step never brings in a duplicate: a set that
holds no handle twice before a message is processed holds none after, and so
after any sequence of messages; hence in a run whose following-list load gives
a duplicate-free set, the set is duplicate-free in every state the run
reaches. -/
theorem C3_nodup_preserved (cfg : Config) (env : Env) (dialOk joinOk : Bool)
    (frames : List Frame) :
    (∀ (st : RunState) (f : Frame), st.following.Nodup →
      (processFrame cfg env st f).1.following.Nodup) ∧
    (∀ st : RunState, st.following.Nodup →
      (recvLoop cfg env st frames).1.following.Nodup) ∧
    ((loadFollowing cfg env).1.following.Nodup →
      (run cfg env dialOk joinOk frames).1.following.Nodup) := by
  refine ⟨processFrame_nodup cfg env, recvLoop_nodup cfg env frames, ?_⟩
  intro h
  unfold run
  split
  · rename_i st heq
    rw [heq] at h
    split
    · exact recvLoop_nodup cfg env frames st h
    · exact h
  · exact h

/-- C3, amended, at a run that loads `{@bob@}` and then sees `alice` twice:
the set ends as `@bob@`, `@alice@example.social`, each once; likewise for one
message and for the loop started from the set `{@bob@}`. -/
theorem C3_nodup_preserved_witness :
    (["@bob@"] : List String).Nodup ∧
    (processFrame exampleConfig (exampleEnv Json.null) { following := ["@bob@"], calls := [] }
      (Frame.message (some (noteMessage "note" "alice" "")))).1.following.Nodup ∧
    (recvLoop exampleConfig (exampleEnv Json.null) { following := ["@bob@"], calls := [] }
      [Frame.message (some (noteMessage "note" "alice" "")),
       Frame.message (some (noteMessage "note" "alice" ""))]).1.following.Nodup ∧
    (loadFollowing exampleConfig
      (exampleEnv (Json.arr [followeeEntry "bob" "remote.example"]))).1.following.Nodup ∧
    (run exampleConfig (exampleEnv (Json.arr [followeeEntry "bob" "remote.example"])) true true
      [Frame.message (some (noteMessage "note" "alice" "")),
       Frame.message (some (noteMessage "note" "alice" ""))]).1.following
      = ["@bob@", "@alice@example.social"] ∧
    (run exampleConfig (exampleEnv (Json.arr [followeeEntry "bob" "remote.example"])) true true
      [Frame.message (some (noteMessage "note" "alice" "")),
       Frame.message (some (noteMessage "note" "alice" ""))]).1.following.Nodup :=
  ⟨by decide,
    (C3_nodup_preserved exampleConfig (exampleEnv Json.null) true true []).1
      { following := ["@bob@"], calls := [] }
      (Frame.message (some (noteMessage "note" "alice" ""))) (by decide),
    (C3_nodup_preserved exampleConfig (exampleEnv Json.null) true true
      [Frame.message (some (noteMessage "note" "alice" "")),
       Frame.message (some (noteMessage "note" "alice" ""))]).2.1
      { following := ["@bob@"], calls := [] } (by decide),
    by decide, by decide,
    (C3_nodup_preserved exampleConfig
      (exampleEnv (Json.arr [followeeEntry "bob" "remote.example"])) true true
      [Frame.message (some (noteMessage "note" "alice" "")),
       Frame.message (some (noteMessage "note" "alice" ""))]).2.2 (by decide)⟩

/-! ## The handle built by the load -/

/-- C4, the code at a response naming `alice` at `example.social`: the load
stores the handle `@alice@`, with an empty host, not `@alice@example.social`;
the handle the decision step computes for a note by that account is not found
in the loaded set, and the account is looked up and followed again. -/
theorem C4_loader_handle_at_failing_input :
    (loadFollowing exampleConfig
      (exampleEnv (Json.arr [followeeEntry "alice" "example.social"]))).2 = Flow.running ∧
    (loadFollowing exampleConfig
      (exampleEnv (Json.arr [followeeEntry "alice" "example.social"]))).1.following
      = ["@alice@"] ∧
    eventHandle exampleConfig { Username := "alice", Host := "example.social" }
      = "@alice@example.social" ∧
    eventHandle exampleConfig { Username := "alice", Host := "example.social" } ∉
      (loadFollowing exampleConfig
        (exampleEnv (Json.arr [followeeEntry "alice" "example.social"]))).1.following ∧
    (run exampleConfig (exampleEnv (Json.arr [followeeEntry "alice" "example.social"]))
      true true [Frame.message (some (noteMessage "note" "alice" "example.social"))]).1.calls
      = [Call.i "https://dest.example/api/i" "dtoken",
         Call.usersFollowing "https://dest.example/api/users/following" (Json.str "me") 100
           "dtoken",
         Call.usersShow "https://dest.example/api/users/show" "alice" "example.social",
         Call.followingCreate "https://dest.example/api/following/create" "u1" "dtoken"] ∧
    (run exampleConfig (exampleEnv (Json.arr [followeeEntry "alice" "example.social"]))
      true true [Frame.message (some (noteMessage "note" "alice" "example.social"))]).1.following
      = ["@alice@", "@alice@example.social"] :=
  ⟨by decide, by decide, by decide, by decide, by rfl, by decide⟩

/-! ## The signal-wait loop -/

/-- Timer ticks do not move a goroutine blocked in the outer `select`. -/
theorem coordRun_outer_timeouts (n : Nat) :
    coordRun CoordLoc.outerSelect (List.replicate n SelectEvent.timeout)
      = CoordLoc.outerSelect := by
  induction n with
  | zero => rfl
  | succ k ih =>
    rw [List.replicate_succ]
    exact ih

/-- C7, the code after an interrupt whose close frame is written, with `done`
never closed and the one-second timer fired: the goroutine is back in the outer
`select`, `Run` has not returned (whereas it returns once `done` is closed),
further timer ticks change nothing, and the only wake-ups that make `Run`
return from there are `done` and an interrupt whose close frame cannot be
written. -/
theorem C7_timeout_reenters_loop :
    coordStep CoordLoc.outerSelect (SelectEvent.interrupt false) = CoordLoc.innerSelect ∧
    coordStep CoordLoc.innerSelect SelectEvent.timeout = CoordLoc.outerSelect ∧
    coordRun CoordLoc.outerSelect [SelectEvent.interrupt false, SelectEvent.timeout]
      = CoordLoc.outerSelect ∧
    coordRun CoordLoc.outerSelect [SelectEvent.interrupt false, SelectEvent.timeout]
      ≠ CoordLoc.returned ∧
    coordRun CoordLoc.outerSelect [SelectEvent.interrupt false, SelectEvent.done,
      SelectEvent.done] = CoordLoc.returned ∧
    (∀ n : Nat, coordRun CoordLoc.outerSelect
      (SelectEvent.interrupt false :: SelectEvent.timeout :: List.replicate n SelectEvent.timeout)
      = CoordLoc.outerSelect) ∧
    (∀ ev : SelectEvent, coordStep CoordLoc.outerSelect ev = CoordLoc.returned ↔
      ev = SelectEvent.done ∨ ev = SelectEvent.interrupt true) := by
  refine ⟨rfl, rfl, rfl, by decide, rfl, ?_, ?_⟩
  · intro n
    exact coordRun_outer_timeouts n
  · intro ev
    rcases ev with _ | b | _
    · simp [coordStep]
    · cases b <;> simp [coordStep]
    · simp [coordStep]

/-! ## Handle equality -/

/-- The characters of a handle. -/
theorem handle_data (u h : String) : (handle u h).data = '@' :: (u.data ++ '@' :: h.data) := by
  simp [handle, String.data_append]

/-- Two lists split at a separator that the left parts do not hold have the
same parts. -/
theorem split_at_sep_unique {α : Type} (c : α) :
    ∀ a b x y : List α, c ∉ a → c ∉ b → a ++ c :: x = b ++ c :: y → a = b ∧ x = y := by
  intro a
  induction a with
  | nil =>
    intro b x y _ hb h
    cases b with
    | nil => simpa using h
    | cons d ds =>
      simp only [List.nil_append, List.cons_append, List.cons.injEq] at h
      exact absurd (h.1 ▸ List.mem_cons_self d ds) hb
  | cons e es ih =>
    intro b x y ha hb h
    cases b with
    | nil =>
      simp only [List.nil_append, List.cons_append, List.cons.injEq] at h
      exact absurd (h.1 ▸ List.mem_cons_self e es) ha
    | cons d ds =>
      simp only [List.cons_append, List.cons.injEq] at h
      have := ih ds x y (fun hm => ha (List.mem_cons_of_mem _ hm))
        (fun hm => hb (List.mem_cons_of_mem _ hm)) h.2
      exact ⟨by rw [h.1, this.1], this.2⟩

/-- C8, as stated, fails: the usernames `a@b` and `a` with the hosts `c` and
`b@c` give the same handle `@a@b@c`. -/
theorem C8_counterexample :
    handle "a@b" "c" = handle "a" "b@c" ∧ ¬ (("a@b" : String) = "a" ∧ ("c" : String) = "b@c") := by
  decide

/-- C8, amended. When neither username holds the character `@` (or neither
host does), the handles are equal exactly when the usernames are equal and the
hosts are equal, character for character. -/
theorem C8_handle_injective (u₁ h₁ u₂ h₂ : String)
    (hsep : ('@' ∉ u₁.data ∧ '@' ∉ u₂.data) ∨ ('@' ∉ h₁.data ∧ '@' ∉ h₂.data)) :
    handle u₁ h₁ = handle u₂ h₂ ↔ u₁ = u₂ ∧ h₁ = h₂ := by
  constructor
  · intro h
    have hd : u₁.data ++ '@' :: h₁.data = u₂.data ++ '@' :: h₂.data := by
      have := congrArg String.data h
      simpa [handle_data] using this
    rcases hsep with ⟨ha, hb⟩ | ⟨ha, hb⟩
    · have := split_at_sep_unique '@' _ _ _ _ ha hb hd
      exact ⟨String.ext this.1, String.ext this.2⟩
    · have hr : h₁.data.reverse ++ '@' :: u₁.data.reverse
          = h₂.data.reverse ++ '@' :: u₂.data.reverse := by
        have := congrArg List.reverse hd
        simpa using this
      have := split_at_sep_unique '@' _ _ _ _ (by simpa using ha) (by simpa using hb) hr
      exact ⟨String.ext (List.reverse_injective this.2),
        String.ext (List.reverse_injective this.1)⟩
  · rintro ⟨rfl, rfl⟩
    rfl

/-- C8, amended, at two accounts that differ only in the case of the username:
the handles differ. -/
theorem C8_handle_injective_witness :
    (('@' ∉ ("Alice" : String).data ∧ '@' ∉ ("alice" : String).data) ∨
      ('@' ∉ ("example.social" : String).data ∧ '@' ∉ ("example.social" : String).data)) ∧
    (handle "Alice" "example.social" = handle "alice" "example.social" ↔
      ("Alice" : String) = "alice" ∧ ("example.social" : String) = "example.social") ∧
    handle "Alice" "example.social" ≠ handle "alice" "example.social" :=
  ⟨by decide,
    C8_handle_injective "Alice" "example.social" "alice" "example.social" (by decide),
    by decide⟩

end Mifedfollow
